import Mathlib

/-!
Verification of the enum-discovery algorithm of `bacdive_tools/discover_enums.py`
(repository `turbomam/bacphen-awareness`).

The Python source is shallowly embedded below.  Strings are Lean `String`s
(operated on through their underlying `List Char` so that everything reduces in
the kernel); a pandas `NaN` / missing value is `Option.none`; the two input
tables are lists of row structures; the four output tables are lists.  The
Python float comparisons `ratio > 0.5` and `ratio > 0.3`, where
`ratio = k / n` for non-negative integers `k ≤ n`, are embedded as the exact
integer comparisons `2 * k > n` and `10 * k > 3 * n`; these agree with the
IEEE-double comparisons for every list length arising in practice (the rounding
error of `k / n` is far smaller than the distance `1 / (10 n)` to the
threshold, and a ratio exactly at a threshold rounds to the double literal
itself, so the strict `>` fails on both sides of the embedding).
-/

namespace BacPhen

/-! ### Heuristic thresholds (discover_enums.py lines 7-11) -/

def MIN_ENUM_VALUES : Nat := 2
def MAX_ENUM_VALUES : Nat := 15
def LONG_TEXT_THRESHOLD : Nat := 50

/-! ### Character-level helpers -/

/-- Whitespace as stripped by Python `str.strip()` (the ASCII whitespace
characters; the claims only exercise spaces). -/
def isWsChar (c : Char) : Bool :=
  c = ' ' || c = '\t' || c = '\n' || c = '\r'

/-- Function `stripChars cs` is Python `str.strip()` on the character list `cs`:
drop leading and trailing whitespace. -/
def stripChars (cs : List Char) : List Char :=
  ((cs.dropWhile isWsChar).reverse.dropWhile isWsChar).reverse

/-- Full match of the regex `^-?\d+(\.\d+)?$` (discover_enums.py line 19):
an optional leading minus, one or more digits, optionally a dot followed by
one or more digits.  Greedy `\d+` followed by `.`/end is exactly
`takeWhile isDigit` plus a case split on the remainder. -/
def numericPattern (cs : List Char) : Bool :=
  let cs2 := match cs with
    | '-' :: rest => rest
    | _ => cs
  let ds := cs2.takeWhile Char.isDigit
  let rest := cs2.dropWhile Char.isDigit
  if ds.isEmpty then false
  else match rest with
    | [] => true
    | '.' :: rest2 =>
        let ds2 := rest2.takeWhile Char.isDigit
        let rest3 := rest2.dropWhile Char.isDigit
        !ds2.isEmpty && rest3.isEmpty
    | _ => false

/-- Test `is_numeric` on a present (non-NaN) string value:
`re.fullmatch(r"^-?\d+(\.\d+)?$", str(value).strip())` (line 19). -/
def isNumericStr (s : String) : Bool :=
  numericPattern (stripChars s.data)

/-- Python `is_numeric(value)` (discover_enums.py lines 15-19).  `none` models a
pandas NaN, for which `pd.isna` returns true and the function returns False. -/
def is_numeric (value : Option String) : Bool :=
  match value with
  | none => false
  | some s => isNumericStr s

/-- Does `needle` occur as a contiguous subsequence of the character list?
This is Python's `sym in text`. -/
def containsSub (needle : List Char) : List Char → Bool
  | [] => needle.isEmpty
  | c :: rest => needle.isPrefixOf (c :: rest) || containsSub needle rest

/-- Test `is_long_text` on a present string value (discover_enums.py lines 25-30):
longer than 50 characters, or containing `©`, `http` or `://`. -/
def isLongTextStr (s : String) : Bool :=
  if LONG_TEXT_THRESHOLD < s.data.length then true
  else if containsSub "©".data s.data || containsSub "http".data s.data ||
      containsSub "://".data s.data then true
  else false

/-- Python `is_long_text(value)` (discover_enums.py lines 21-30). -/
def is_long_text (value : Option String) : Bool :=
  match value with
  | none => false
  | some s => isLongTextStr s

/-! ### Path canonicalization and lineage -/

/-- Python `s.endswith(suffix)`. -/
def strEndsWith (s suffix : String) : Bool :=
  suffix.data.isSuffixOf s.data

/-- Canonicalization of one path (discover_enums.py lines 40-43):
if `path` ends with `.[]`, strip those three characters (`path[:-3]`),
otherwise return `path` unchanged. -/
def canonicalize (path : String) : String :=
  if strEndsWith path ".[]" then
    String.mk (path.data.take (path.data.length - 3))
  else path

/-- Split a character list at every `'.'` — Python `str.split(".")`:
the empty string yields one empty segment. -/
def splitDot : List Char → List (List Char)
  | [] => [[]]
  | c :: rest =>
    if c = '.' then [] :: splitDot rest
    else match splitDot rest with
      | [] => [[c]]
      | h :: t => (c :: h) :: t

/-- Python `".".join(segments)`. -/
def joinDots : List (List Char) → List Char
  | [] => []
  | [x] => x
  | x :: xs => x ++ ('.' :: joinDots xs)

/-- Python `extract_lineage(path)` (discover_enums.py lines 32-34):
`".".join(path.split(".")[:-1])`. -/
def extract_lineage (path : String) : String :=
  String.mk (joinDots ((splitDot path.data).dropLast))

/-! ### Generic list helpers mirroring pandas/dict behaviour -/

/-- Deduplicate keeping the first occurrence of each element — the behaviour
of pandas `Series.unique()` and of Python `dict` insertion. -/
def dedupFirstAux {α : Type} [DecidableEq α] (seen : List α) : List α → List α
  | [] => []
  | x :: xs =>
    if x ∈ seen then dedupFirstAux seen xs
    else x :: dedupFirstAux (x :: seen) xs

/-- See `dedupFirstAux`. -/
def dedupFirst {α : Type} [DecidableEq α] (l : List α) : List α :=
  dedupFirstAux [] l

/-- Lexicographic (code-point) order on character lists — Python string `<`. -/
def lexLe : List Char → List Char → Bool
  | [], _ => true
  | _ :: _, [] => false
  | a :: as, b :: bs => if a = b then lexLe as bs else decide (a < b)

/-- Insert into a `lexLe`-sorted list of strings. -/
def insertSorted (x : String) : List String → List String
  | [] => [x]
  | y :: ys => if lexLe x.data y.data then x :: y :: ys else y :: insertSorted x ys

/-- Python `sorted` on a list of strings. -/
def sortStrings (l : List String) : List String :=
  l.foldr insertSorted []

/-- Canonical representation of Python `sorted(set(l))` (and, as a list key,
of `frozenset(l)`): distinct elements in lexicographic order. -/
def canonSet (l : List String) : List String :=
  sortStrings (dedupFirst l)

end BacPhen

namespace BacPhen

example : canonicalize "a.b.[]" = "a.b" := by decide
example : canonicalize "a.b" = "a.b" := by decide
example : canonicalize "a.[].[]" = "a.[]" := by decide
example : extract_lineage "a.b.c" = "a.b" := by decide
example : extract_lineage "x" = "" := by decide
example : is_numeric (some " 42 ") = true := by decide
example : is_numeric (some "-3.5") = true := by decide
example : is_numeric (some "4.") = false := by decide
example : is_numeric (some "x7") = false := by decide
example : is_long_text (some "see http://x") = true := by decide
example : is_long_text (some "red") = false := by decide
example : canonSet ["b", "a", "b"] = ["a", "b"] := by decide

/-! ### Data model: input rows, log entries, accumulator state -/

/-- One row of the merged path-statistics table (`--merged-file`):
columns `path` and `distinct_value_count` (spec section 6). -/
structure PathStat where
  path : String
  distinct_value_count : Nat
deriving DecidableEq

/-- One row of the value-sample table (`--values-file`): columns `path` and
`value`; a missing/empty value is `none` (pandas NaN). -/
structure ValueSample where
  path : String
  value : Option String
deriving DecidableEq

/-- One decision-log row: columns `path`, `decision`, `reason`, `lineage`
(discover_enums.py line 191). -/
structure LogEntry where
  path : String
  decision : String
  reason : String
  lineage : String
deriving DecidableEq

/-- The accumulators of the sibling-group loop (discover_enums.py lines
82-90): the global enum counter and the three growing tables.  Enum ids are
kept as the raw counter value `n` of `f"Enum_{n:04d}"`; `enumId` renders
the string form. -/
structure DiscoverState where
  enum_counter : Nat
  decision_log : List LogEntry
  enum_value_pairs : List (Nat × String)
  path_to_enum : List (String × Nat)
deriving DecidableEq

/-- Initial state: counter 1, all tables empty (lines 82-90). -/
def initState : DiscoverState := ⟨1, [], [], []⟩

/-- Zero-padded rendering `f"Enum_{n:04d}"` (lines 132 and 164). -/
def enumId (n : Nat) : String :=
  let s := toString n
  "Enum_" ++ String.mk (List.replicate (4 - s.length) '0') ++ s

/-! ### Value classifier (discover_enums.py lines 99-119) -/

/-- The fate of one path inside the classification loop.  `exclude_empty`
is the silent `continue` for a path with no non-null samples (lines
101-103); the two exclusions are logged; `include_categorical` sets the
inclusion flag. -/
inductive Decision where
  | exclude_empty
  | exclude_numeric
  | exclude_long_text
  | include_categorical
deriving DecidableEq

/-- The non-null values of a sample list (line 100:
`vals = [v for v in vals if pd.notna(v)]`). -/
def nonnull (vals : List (Option String)) : List String :=
  vals.filterMap id

/-- The classification cascade of lines 101-119, in source order: empty,
numeric-dominated (`numeric_ratio > 0.5`, embedded as `2·k > n`),
long-text (`long_text_ratio > 0.3`, embedded as `10·k > 3·n`), else
categorical. -/
def classifyPath (vals : List (Option String)) : Decision :=
  let nn := nonnull vals
  if nn.isEmpty then .exclude_empty
  else if 2 * nn.countP isNumericStr > nn.length then .exclude_numeric
  else if 10 * nn.countP isLongTextStr > 3 * nn.length then .exclude_long_text
  else .include_categorical

/-- Python `len(set(vals))` over the non-null samples of a path (line 118). -/
def distinctCount (vals : List (Option String)) : Nat :=
  (dedupFirst (nonnull vals)).length

/-! ### Enum assembler: one sibling group (discover_enums.py lines 92-144) -/

/-- The decision-log rows appended by the classification loop for one group
(lines 110 and 115), in sibling order. -/
def excludeEntries (vg : String → List (Option String)) (lineage : String)
    (siblings : List String) : List LogEntry :=
  siblings.filterMap (fun p =>
    match classifyPath (vg p) with
    | .exclude_numeric => some ⟨p, "exclude", "numeric-dominated", lineage⟩
    | .exclude_long_text => some ⟨p, "exclude", "long-text-non-biological", lineage⟩
    | _ => none)

/-- Python `include_paths` (line 121): the siblings whose flag is set. -/
def includedPaths (vg : String → List (Option String))
    (siblings : List String) : List String :=
  siblings.filter (fun p => decide (classifyPath (vg p) = .include_categorical))

/-- The oversized-group rule (lines 125-130) on the included paths, given
the per-path distinct sample count.  Returns the surviving include list and
whether an `include_override` row is to be logged.  `sibling_value_counts`
has exactly the included paths as keys, so the majority test counts over
`ips`. -/
def oversizedKeep (countOf : String → Nat) (ips : List String) :
    List String × Bool :=
  if ips.any (fun p => decide (MAX_ENUM_VALUES < countOf p)) then
    if 2 * ips.countP (fun p => decide (countOf p ≤ MAX_ENUM_VALUES)) > ips.length then
      (ips, true)
    else
      (ips.filter (fun p => decide (countOf p ≤ MAX_ENUM_VALUES)), false)
  else (ips, false)

/-- One iteration of the lineage loop (lines 92-144).  `vg` is the
`values_grouped` dictionary (canonical path to sampled values; `.get(s, [])`
is total here); `siblings0` is `group["canonical_path"]`, deduplicated to
first occurrences exactly as `unique()` and the dict comprehension do.
When `include_paths` is empty the group is skipped (lines 122-123) — but
the ratio exclusions have already been logged.  Otherwise the oversized
rule runs, an enum id is allocated unconditionally (lines 132-133), the
non-null value union is emitted sorted (lines 135-140), and the include
rows follow (lines 142-144). -/
def processGroup (vg : String → List (Option String)) (st : DiscoverState)
    (lineage : String) (siblings0 : List String) : DiscoverState :=
  let siblings := dedupFirst siblings0
  let excl := excludeEntries vg lineage siblings
  let ips := includedPaths vg siblings
  if ips.isEmpty then
    { st with decision_log := st.decision_log ++ excl }
  else
    let res := oversizedKeep (fun p => distinctCount (vg p)) ips
    let kept := res.1
    let ovr : List LogEntry :=
      if res.2 then [⟨lineage, "include_override", "lineage-override", lineage⟩] else []
    let unionVals := canonSet (kept.foldl (fun acc p => acc ++ nonnull (vg p)) [])
    { enum_counter := st.enum_counter + 1,
      decision_log := st.decision_log ++ excl ++ ovr ++
        kept.map (fun p => ⟨p, "include", "categorical", lineage⟩),
      enum_value_pairs := st.enum_value_pairs ++
        unionVals.map (fun v => (st.enum_counter, v)),
      path_to_enum := st.path_to_enum ++ kept.map (fun p => (p, st.enum_counter)) }

/-! ### Enum deduplicator (discover_enums.py lines 151-176) -/

/-- Python `enum_to_values` (lines 151-156): the distinct enum ids of the pair
table — ids are created in ascending order, and `groupby` sorts them, so
first-occurrence order coincides with the sorted order for the 4-digit ids —
each with the `frozenset` of its values, represented canonically by
`canonSet`. -/
def enum_to_values (pairs : List (Nat × String)) : List (Nat × List String) :=
  (dedupFirst (pairs.map Prod.fst)).map (fun e =>
    (e, canonSet ((pairs.filter (fun q => q.1 == e)).map Prod.snd)))

/-- The state of the dedup walk (lines 158-167): the value-set-to-canonical
table, the remap built so far, and `canonical_counter`. -/
structure DedupState where
  table : List (List String × Nat)
  remap : List (Nat × Nat)
  counter : Nat
deriving DecidableEq

/-- One step of the dedup loop (lines 162-167): an unseen value set is
assigned the next canonical counter value; every enum is remapped to its
set's canonical id. -/
def dedupStep (st : DedupState) (e : Nat × List String) : DedupState :=
  match st.table.lookup e.2 with
  | some c => ⟨st.table, st.remap ++ [(e.1, c)], st.counter⟩
  | none => ⟨st.table ++ [(e.2, st.counter)], st.remap ++ [(e.1, st.counter)],
      st.counter + 1⟩

/-- Python `enum_remap` (lines 158-167) as an association list in walk order. -/
def enumRemap (enums : List (Nat × List String)) : List (Nat × Nat) :=
  (enums.foldl dedupStep ⟨[], [], 1⟩).remap

/-- Look an id up in the remap (total: an id absent from the table is
unchanged; in the source every id present in the tables is in the remap). -/
def remapOf (remap : List (Nat × Nat)) (e : Nat) : Nat :=
  (remap.lookup e).getD e

/-- Rewrite of the enum-value rows (lines 169-170). -/
def applyRemapPairs (remap : List (Nat × Nat)) (pairs : List (Nat × String)) :
    List (Nat × String) :=
  pairs.map (fun q => (remapOf remap q.1, q.2))

/-- Rewrite of the path-to-enum rows (lines 172-173). -/
def applyRemapP2E (remap : List (Nat × Nat)) (rows : List (String × Nat)) :
    List (String × Nat) :=
  rows.map (fun r => (r.1, remapOf remap r.2))

/-- Python `merged_enums` (line 175): the remap entries whose id changed. -/
def mergeLog (remap : List (Nat × Nat)) : List (Nat × Nat) :=
  remap.filter (fun q => q.1 != q.2)

/-! ### The full pipeline (discover_enums.py lines 58-192) -/

/-- The four output tables (lines 183-192), with enum ids rendered and the
pandas `drop_duplicates()` (first occurrence kept) applied to the first
two tables. -/
structure Outputs where
  enum_value_pairs : List (String × String)
  path_to_enum : List (String × String)
  decision_log : List LogEntry
  enum_merge_log : List (String × String)
deriving DecidableEq

/-- The whole in-memory computation of `discover_enums` on parsed tables
(lines 72-192): canonicalize both tables, filter candidates with
`distinct_value_count >= MIN_ENUM_VALUES`, group values by canonical path,
group candidates by lineage (`groupby` iterates lineages sorted), fold
`processGroup`, deduplicate, rewrite, and render the four tables. -/
def discover (merged : List PathStat) (values : List ValueSample) : Outputs :=
  let candidates := merged.filter (fun r => MIN_ENUM_VALUES ≤ r.distinct_value_count)
  let vg : String → List (Option String) := fun c =>
    (values.filter (fun r => canonicalize r.path == c)).map ValueSample.value
  let lins := sortStrings (dedupFirst
    (candidates.map (fun r => extract_lineage (canonicalize r.path))))
  let sibsOf : String → List String := fun lin =>
    (candidates.filter (fun r => extract_lineage (canonicalize r.path) == lin)).map
      (fun r => canonicalize r.path)
  let st := lins.foldl (fun st lin => processGroup vg st lin (sibsOf lin)) initState
  let remap := enumRemap (enum_to_values st.enum_value_pairs)
  { enum_value_pairs := dedupFirst ((applyRemapPairs remap st.enum_value_pairs).map
      (fun q => (enumId q.1, q.2))),
    path_to_enum := dedupFirst ((applyRemapP2E remap st.path_to_enum).map
      (fun r => (r.1, enumId r.2))),
    decision_log := st.decision_log,
    enum_merge_log := (mergeLog remap).map (fun q => (enumId q.1, enumId q.2)) }

/-! ### Input parsing and the run boundary (lines 67-69 and 183-192) -/

/-- A Boolean suffix test is an existence of a split. -/
theorem strEndsWith_iff (s suf : String) :
    strEndsWith s suf = true ↔ ∃ q, q ++ suf.data = s.data := by
  unfold strEndsWith
  rw [List.isSuffixOf_iff_suffix]
  exact Iff.rfl

/-- C6: the claim states that `canonicalize` is idempotent for **every**
path string.  It is not: `canonicalize` strips only one trailing `.[]`
(discover_enums.py line 41, `path[:-3]`), so on `"a.[].[]"` the first
application yields `"a.[]"` and a second application strips again. -/
theorem C6_counterexample :
    canonicalize (canonicalize "a.[].[]") ≠ canonicalize "a.[].[]" ∧
    canonicalize "a.[].[]" = "a.[]" ∧ canonicalize "a.[]" = "a" := by decide

/-- C6 (amended): `canonicalize` strips a trailing `.[]` if present and
otherwise returns the path unchanged, and it is idempotent on every path
that does not end with `.[].[]` (equivalently, whenever its result does not
itself end in `.[]`). -/
theorem C6_amended_idempotent (p : String) (h : strEndsWith p ".[].[]" = false) :
    canonicalize (canonicalize p) = canonicalize p := by
  by_cases h3 : strEndsWith p ".[]" = true
  · obtain ⟨q, hq⟩ := (strEndsWith_iff p ".[]").mp h3
    have hlen : (".[]" : String).data.length = 3 := by decide
    have hcan : canonicalize p = String.mk q := by
      unfold canonicalize
      rw [if_pos h3]
      congr 1
      rw [← hq, List.length_append, hlen, Nat.add_sub_cancel]
      exact List.take_left q (".[]" : String).data
    have hmkdata : (String.mk q).data = q := rfl
    have h2 : ¬ strEndsWith (String.mk q) ".[]" = true := by
      intro hc
      obtain ⟨q2, hq2⟩ := (strEndsWith_iff (String.mk q) ".[]").mp hc
      rw [hmkdata] at hq2
      have hdup : (".[]" : String).data ++ (".[]" : String).data =
          (".[].[]" : String).data := by decide
      have : strEndsWith p ".[].[]" = true := by
        refine (strEndsWith_iff p ".[].[]").mpr ⟨q2, ?_⟩
        rw [← hq, ← hq2, List.append_assoc, hdup]
      rw [this] at h
      exact Bool.noConfusion h
    rw [hcan]
    conv_lhs => unfold canonicalize
    rw [if_neg h2]
  · have hcan : canonicalize p = p := by
      unfold canonicalize
      rw [if_neg h3]
    rw [hcan, hcan]

/-- Witness for `C6_amended_idempotent` at the concrete path `"a.b.[]"`. -/
theorem C6_amended_witness :
    canonicalize (canonicalize "a.b.[]") = canonicalize "a.b.[]" :=
  C6_amended_idempotent "a.b.[]" (by decide)

/-! ### C10 — `is_numeric` strips whitespace -/

/-- Dropping a whitespace run in front of a list does not change
`dropWhile isWsChar`. -/
theorem dropWhile_ws_append (w l : List Char) (hw : ∀ c ∈ w, isWsChar c = true) :
    (w ++ l).dropWhile isWsChar = l.dropWhile isWsChar :=
  List.dropWhile_append_of_pos hw

/-- Function `stripChars` ignores whitespace appended on either side. -/
theorem stripChars_ws_invariant (w1 w2 l : List Char)
    (h1 : ∀ c ∈ w1, isWsChar c = true) (h2 : ∀ c ∈ w2, isWsChar c = true) :
    stripChars (w1 ++ l ++ w2) = stripChars l := by
  unfold stripChars
  rw [List.append_assoc, dropWhile_ws_append w1 (l ++ w2) h1]
  rw [List.dropWhile_append]
  by_cases he : (l.dropWhile isWsChar).isEmpty
  · rw [if_pos he]
    have hl : l.dropWhile isWsChar = [] := List.isEmpty_iff.mp he
    have hw2 : w2.dropWhile isWsChar = [] := by
      have := @List.dropWhile_append_of_pos _ isWsChar w2 [] h2
      simpa using this
    rw [hl, hw2]
  · rw [if_neg he]
    have h2r : ∀ c ∈ w2.reverse, isWsChar c = true := by
      intro c hc
      exact h2 c (List.mem_reverse.mp hc)
    rw [List.reverse_append, dropWhile_ws_append w2.reverse _ h2r]

/-- C10: `is_numeric` strips leading and trailing whitespace before
matching the signed integer/decimal pattern (discover_enums.py line 19,
`str(value).strip()`), so surrounding whitespace never changes the
verdict; in particular a numeric literal surrounded by whitespace counts
as numeric. -/
theorem C10_is_numeric_strips_whitespace (w1 w2 : List Char) (s : String)
    (h1 : ∀ c ∈ w1, isWsChar c = true) (h2 : ∀ c ∈ w2, isWsChar c = true) :
    is_numeric (some (String.mk (w1 ++ s.data ++ w2))) = is_numeric (some s) := by
  show isNumericStr (String.mk (w1 ++ s.data ++ w2)) = isNumericStr s
  unfold isNumericStr
  have hd : (String.mk (w1 ++ s.data ++ w2)).data = w1 ++ s.data ++ w2 := rfl
  rw [hd, stripChars_ws_invariant w1 w2 s.data h1 h2]

/-- Witness for `C10_is_numeric_strips_whitespace`: `" 42 "` is judged
exactly like `"42"`, which is numeric. -/
theorem C10_witness :
    is_numeric (some (String.mk ([' '] ++ "42".data ++ [' ']))) = is_numeric (some "42") ∧
    is_numeric (some "42") = true :=
  ⟨C10_is_numeric_strips_whitespace [' '] [' '] "42" (by decide) (by decide), by decide⟩

/-! ### C5 — classifier rule order and strict thresholds -/

/-- C5: the classifier evaluates its rules in the source order
empty → numeric → long-text → categorical (discover_enums.py lines
99-119), each ratio is computed over the non-null values only, and both
ratio tests are strict: a numeric ratio of exactly 1/2 (`2·k = n`) never
triggers the numeric exclusion and a long-text ratio of exactly 3/10
(`10·k = 3·n`) never triggers the long-text exclusion. -/
theorem C5_classifier_order_and_strictness (vals : List (Option String)) :
    (nonnull vals = [] → classifyPath vals = Decision.exclude_empty) ∧
    (2 * (nonnull vals).countP isNumericStr = (nonnull vals).length →
      classifyPath vals ≠ Decision.exclude_numeric) ∧
    (10 * (nonnull vals).countP isLongTextStr = 3 * (nonnull vals).length →
      classifyPath vals ≠ Decision.exclude_long_text) ∧
    (nonnull vals ≠ [] →
      2 * (nonnull vals).countP isNumericStr > (nonnull vals).length →
      classifyPath vals = Decision.exclude_numeric) ∧
    (nonnull vals ≠ [] →
      ¬ 2 * (nonnull vals).countP isNumericStr > (nonnull vals).length →
      10 * (nonnull vals).countP isLongTextStr > 3 * (nonnull vals).length →
      classifyPath vals = Decision.exclude_long_text) ∧
    (nonnull vals ≠ [] →
      ¬ 2 * (nonnull vals).countP isNumericStr > (nonnull vals).length →
      ¬ 10 * (nonnull vals).countP isLongTextStr > 3 * (nonnull vals).length →
      classifyPath vals = Decision.include_categorical) := by
  unfold classifyPath
  by_cases h0 : (nonnull vals).isEmpty
  · have h0n : nonnull vals = [] := List.isEmpty_iff.mp h0
    refine ⟨fun _ => by rw [if_pos h0], ?_, ?_, ?_, ?_, ?_⟩
    · intro _
      rw [if_pos h0]
      exact fun hc => Decision.noConfusion hc
    · intro _
      rw [if_pos h0]
      exact fun hc => Decision.noConfusion hc
    · intro hne
      exact absurd h0n hne
    · intro hne
      exact absurd h0n hne
    · intro hne
      exact absurd h0n hne
  · have h0n : nonnull vals ≠ [] := fun hc => h0 (List.isEmpty_iff.mpr hc)
    rw [if_neg h0]
    by_cases hnum : 2 * (nonnull vals).countP isNumericStr > (nonnull vals).length
    · rw [if_pos hnum]
      refine ⟨fun hc => absurd hc h0n, ?_, ?_, fun _ _ => rfl, ?_, ?_⟩
      · intro heq
        omega
      · intro _
        exact fun hc => Decision.noConfusion hc
      · intro _ hc
        exact absurd hnum hc
      · intro _ hc
        exact absurd hnum hc
    · rw [if_neg hnum]
      by_cases hlt : 10 * (nonnull vals).countP isLongTextStr > 3 * (nonnull vals).length
      · rw [if_pos hlt]
        refine ⟨fun hc => absurd hc h0n, ?_, ?_, ?_, fun _ _ _ => rfl, ?_⟩
        · intro _
          exact fun hc => Decision.noConfusion hc
        · intro heq
          omega
        · intro _ hn
          exact absurd hn hnum
        · intro _ _ hc
          exact absurd hlt hc
      · rw [if_neg hlt]
        refine ⟨fun hc => absurd hc h0n, ?_, ?_, ?_, ?_, fun _ _ _ => rfl⟩
        · intro _
          exact fun hc => Decision.noConfusion hc
        · intro _
          exact fun hc => Decision.noConfusion hc
        · intro _ hn
          exact absurd hn hnum
        · intro _ _ hl
          exact absurd hl hlt

/-- Witness for `C5_classifier_order_and_strictness`: over
`[some "1", some "ab"]` the numeric ratio is exactly 1/2, and the path is
not excluded as numeric-dominated. -/
theorem C5_witness :
    classifyPath [some "1", some "ab"] ≠ Decision.exclude_numeric :=
  (C5_classifier_order_and_strictness [some "1", some "ab"]).2.1 (by decide)

/-! ### C8 — oversized rule uses sampled distinct counts -/

/-- C8: the oversized-group rule (discover_enums.py lines 125-130) reads
`sibling_value_counts`, which is `len(set(vals))` over the non-null sampled
values of each included path (line 118) — the `distinct_value_count` column
of the statistics table does not reach `oversizedKeep` at all.  Hence an
included path whose samples contain at most `MAX_ENUM_VALUES` distinct
non-null values always survives the oversized filter, whatever its
statistics row said. -/
theorem C8_oversized_reads_sample_counts (vg : String → List (Option String))
    (ips : List String) (p : String) (hp : p ∈ ips)
    (hc : distinctCount (vg p) ≤ MAX_ENUM_VALUES) :
    p ∈ (oversizedKeep (fun q => distinctCount (vg q)) ips).1 := by
  unfold oversizedKeep
  split
  · split
    · exact hp
    · exact List.mem_filter.mpr ⟨hp, by simpa using hc⟩
  · exact hp

/-- Witness for `C8_oversized_reads_sample_counts`: in a group whose other
path has 16 distinct sampled values, the path with only 2 distinct sampled
values is kept by the oversized filter. -/
theorem C8_witness :
    "a.b" ∈ (oversizedKeep
      (fun q => distinctCount ((fun p => if p = "a.c" then
        [some "u01", some "u02", some "u03", some "u04", some "u05", some "u06",
         some "u07", some "u08", some "u09", some "u10", some "u11", some "u12",
         some "u13", some "u14", some "u15", some "u16"]
        else [some "x", some "y"]) q)) ["a.c", "a.b"]).1 :=
  C8_oversized_reads_sample_counts
    (fun p => if p = "a.c" then
      [some "u01", some "u02", some "u03", some "u04", some "u05", some "u06",
       some "u07", some "u08", some "u09", some "u10", some "u11", some "u12",
       some "u13", some "u14", some "u15", some "u16"]
      else [some "x", some "y"])
    ["a.c", "a.b"] "a.b" (by decide) (by decide)

/-! ### Shared lemmas about one sibling-group iteration -/

/-- Unfolding of `processGroup` when the included set is non-empty:
the enum counter advances and the three tables grow by the group's rows. -/
theorem processGroup_eq_pos (vg : String → List (Option String)) (st : DiscoverState)
    (lineage : String) (siblings0 : List String)
    (h : includedPaths vg (dedupFirst siblings0) ≠ []) :
    processGroup vg st lineage siblings0 =
      { enum_counter := st.enum_counter + 1,
        decision_log := st.decision_log ++ excludeEntries vg lineage (dedupFirst siblings0) ++
          (if (oversizedKeep (fun p => distinctCount (vg p))
                (includedPaths vg (dedupFirst siblings0))).2 then
              [⟨lineage, "include_override", "lineage-override", lineage⟩] else []) ++
          (oversizedKeep (fun p => distinctCount (vg p))
              (includedPaths vg (dedupFirst siblings0))).1.map
            (fun p => ⟨p, "include", "categorical", lineage⟩),
        enum_value_pairs := st.enum_value_pairs ++
          (canonSet ((oversizedKeep (fun p => distinctCount (vg p))
              (includedPaths vg (dedupFirst siblings0))).1.foldl
            (fun acc p => acc ++ nonnull (vg p)) [])).map (fun v => (st.enum_counter, v)),
        path_to_enum := st.path_to_enum ++
          (oversizedKeep (fun p => distinctCount (vg p))
              (includedPaths vg (dedupFirst siblings0))).1.map
            (fun p => (p, st.enum_counter)) } := by
  have h2 : ¬ (includedPaths vg (dedupFirst siblings0)).isEmpty = true := by
    rw [List.isEmpty_iff]
    exact h
  unfold processGroup
  rw [if_neg h2]

/-- The decision log after a group is the old log, then the ratio-exclusion
rows, then possibly more rows — in both the skipped and the enum-producing
branch of `processGroup`. -/
theorem processGroup_log_shape (vg : String → List (Option String)) (st : DiscoverState)
    (lineage : String) (siblings0 : List String) :
    ∃ rest, (processGroup vg st lineage siblings0).decision_log =
      st.decision_log ++ excludeEntries vg lineage (dedupFirst siblings0) ++ rest := by
  by_cases h : includedPaths vg (dedupFirst siblings0) = []
  · refine ⟨[], ?_⟩
    unfold processGroup
    rw [if_pos (List.isEmpty_iff.mpr h)]
    simp
  · refine ⟨(if (oversizedKeep (fun p => distinctCount (vg p))
        (includedPaths vg (dedupFirst siblings0))).2 then
          [⟨lineage, "include_override", "lineage-override", lineage⟩] else []) ++
      (oversizedKeep (fun p => distinctCount (vg p))
          (includedPaths vg (dedupFirst siblings0))).1.map
        (fun p => ⟨p, "include", "categorical", lineage⟩), ?_⟩
    rw [processGroup_eq_pos vg st lineage siblings0 h]
    simp [List.append_assoc]

/-! ### C4 — oversized-group override rule -/

/-- C4: when some included path has more than `MAX_ENUM_VALUES` distinct
sampled values (discover_enums.py line 125), then (i) if strictly more than
half of the included paths are at or below the limit, the full included set
is kept and exactly one `include_override` row keyed by the lineage is
logged between the exclusion rows and the include rows (lines 127-128);
(ii) otherwise every included path above the limit is dropped and no
override row is logged (line 130). -/
theorem C4_override_rule (vg : String → List (Option String)) (st : DiscoverState)
    (lineage : String) (siblings0 : List String)
    (hov : (includedPaths vg (dedupFirst siblings0)).any
      (fun p => decide (MAX_ENUM_VALUES < distinctCount (vg p))) = true) :
    (2 * (includedPaths vg (dedupFirst siblings0)).countP
        (fun p => decide (distinctCount (vg p) ≤ MAX_ENUM_VALUES)) >
        (includedPaths vg (dedupFirst siblings0)).length →
      (processGroup vg st lineage siblings0).path_to_enum =
        st.path_to_enum ++ (includedPaths vg (dedupFirst siblings0)).map
          (fun p => (p, st.enum_counter)) ∧
      (processGroup vg st lineage siblings0).decision_log =
        st.decision_log ++ excludeEntries vg lineage (dedupFirst siblings0) ++
          [⟨lineage, "include_override", "lineage-override", lineage⟩] ++
          (includedPaths vg (dedupFirst siblings0)).map
            (fun p => ⟨p, "include", "categorical", lineage⟩)) ∧
    (¬ 2 * (includedPaths vg (dedupFirst siblings0)).countP
        (fun p => decide (distinctCount (vg p) ≤ MAX_ENUM_VALUES)) >
        (includedPaths vg (dedupFirst siblings0)).length →
      (processGroup vg st lineage siblings0).path_to_enum =
        st.path_to_enum ++ ((includedPaths vg (dedupFirst siblings0)).filter
          (fun p => decide (distinctCount (vg p) ≤ MAX_ENUM_VALUES))).map
          (fun p => (p, st.enum_counter)) ∧
      (processGroup vg st lineage siblings0).decision_log =
        st.decision_log ++ excludeEntries vg lineage (dedupFirst siblings0) ++
          ((includedPaths vg (dedupFirst siblings0)).filter
            (fun p => decide (distinctCount (vg p) ≤ MAX_ENUM_VALUES))).map
            (fun p => ⟨p, "include", "categorical", lineage⟩)) := by
  have hne : includedPaths vg (dedupFirst siblings0) ≠ [] := by
    intro hc
    rw [hc] at hov
    exact Bool.noConfusion hov
  rw [processGroup_eq_pos vg st lineage siblings0 hne]
  constructor
  · intro hmaj
    have hok : oversizedKeep (fun p => distinctCount (vg p))
        (includedPaths vg (dedupFirst siblings0)) =
        (includedPaths vg (dedupFirst siblings0), true) := by
      unfold oversizedKeep
      rw [if_pos hov, if_pos hmaj]
    rw [hok]
    exact ⟨rfl, rfl⟩
  · intro hmaj
    have hok : oversizedKeep (fun p => distinctCount (vg p))
        (includedPaths vg (dedupFirst siblings0)) =
        ((includedPaths vg (dedupFirst siblings0)).filter
          (fun p => decide (distinctCount (vg p) ≤ MAX_ENUM_VALUES)), false) := by
      unfold oversizedKeep
      rw [if_pos hov, if_neg hmaj]
    rw [hok]
    refine ⟨rfl, ?_⟩
    simp

/-- Concrete group for the C4 witness: four categorical sibling paths whose
distinct sample counts are 20, 5, 6 and 7 — the spec's override example. -/
def vgC4 : String → List (Option String) := fun p =>
  if p = "g.p1" then (List.range 20).map (fun i => some ("a" ++ toString i))
  else if p = "g.p2" then (List.range 5).map (fun i => some ("b" ++ toString i))
  else if p = "g.p3" then (List.range 6).map (fun i => some ("c" ++ toString i))
  else if p = "g.p4" then (List.range 7).map (fun i => some ("d" ++ toString i))
  else []

/-- Witness for `C4_override_rule`: with counts [20, 5, 6, 7] the majority
(3 of 4) is at or below 15, so all four paths are retained and one
`include_override` row keyed by the lineage is logged. -/
theorem C4_witness :
    (processGroup vgC4 initState "g" ["g.p1", "g.p2", "g.p3", "g.p4"]).path_to_enum =
      initState.path_to_enum ++
        (includedPaths vgC4 (dedupFirst ["g.p1", "g.p2", "g.p3", "g.p4"])).map
          (fun p => (p, initState.enum_counter)) ∧
    (processGroup vgC4 initState "g" ["g.p1", "g.p2", "g.p3", "g.p4"]).decision_log =
      initState.decision_log ++
        excludeEntries vgC4 "g" (dedupFirst ["g.p1", "g.p2", "g.p3", "g.p4"]) ++
        [⟨"g", "include_override", "lineage-override", "g"⟩] ++
        (includedPaths vgC4 (dedupFirst ["g.p1", "g.p2", "g.p3", "g.p4"])).map
          (fun p => ⟨p, "include", "categorical", "g"⟩) :=
  (C4_override_rule vgC4 initState "g" ["g.p1", "g.p2", "g.p3", "g.p4"]
    (by decide)).1 (by decide)

/-! ### C2 — a group emptied by the oversized filter still consumes an id -/

/-- Concrete group for C2: a single categorical path with 16 distinct
sampled values — the oversized filter removes it and leaves the included
set empty. -/
def vgC2 : String → List (Option String) := fun p =>
  if p = "a.b" then
    [some "w01", some "w02", some "w03", some "w04", some "w05", some "w06",
     some "w07", some "w08", some "w09", some "w10", some "w11", some "w12",
     some "w13", some "w14", some "w15", some "w16"]
  else []

/-- C2: the claim states that a group whose included paths are all removed
by the oversized filter is skipped exactly like a group with no included
paths, with the global enum counter not advancing.  False: the
`if not include_paths: continue` test (discover_enums.py line 122) runs
**before** the oversized filter (line 130), so the counter is incremented
(lines 132-133) even though the group emits no rows.  Here the filter
empties the included set, yet the counter advances from 1 to 2. -/
theorem C2_counterexample :
    includedPaths vgC2 (dedupFirst ["a.b"]) ≠ [] ∧
    (oversizedKeep (fun p => distinctCount (vgC2 p))
      (includedPaths vgC2 (dedupFirst ["a.b"]))).1 = [] ∧
    (processGroup vgC2 initState "a" ["a.b"]).enum_counter ≠ initState.enum_counter ∧
    (processGroup vgC2 initState "a" ["a.b"]).enum_value_pairs = [] ∧
    (processGroup vgC2 initState "a" ["a.b"]).path_to_enum = [] := by decide

/-- C2 (amended): when the oversized filter removes every included path,
the group emits no enum-value rows, no path-to-enum rows and no
include/override log rows — it is silent in the output tables — but the
global enum counter still advances by one, consuming an id that never
appears anywhere; an id is consumed whenever the included set is non-empty
**before** the oversized filter, not after it. -/
theorem C2_amended_counter_advances (vg : String → List (Option String))
    (st : DiscoverState) (lineage : String) (siblings0 : List String)
    (h1 : includedPaths vg (dedupFirst siblings0) ≠ [])
    (h2 : (oversizedKeep (fun p => distinctCount (vg p))
      (includedPaths vg (dedupFirst siblings0))).1 = []) :
    processGroup vg st lineage siblings0 =
      { enum_counter := st.enum_counter + 1,
        decision_log := st.decision_log ++ excludeEntries vg lineage (dedupFirst siblings0),
        enum_value_pairs := st.enum_value_pairs,
        path_to_enum := st.path_to_enum } := by
  have hflag : (oversizedKeep (fun p => distinctCount (vg p))
      (includedPaths vg (dedupFirst siblings0))).2 = false := by
    unfold oversizedKeep at h2 ⊢
    by_cases ha : (includedPaths vg (dedupFirst siblings0)).any
        (fun p => decide (MAX_ENUM_VALUES < distinctCount (vg p))) = true
    · rw [if_pos ha] at h2 ⊢
      by_cases hm : 2 * (includedPaths vg (dedupFirst siblings0)).countP
          (fun p => decide (distinctCount (vg p) ≤ MAX_ENUM_VALUES)) >
          (includedPaths vg (dedupFirst siblings0)).length
      · rw [if_pos hm] at h2
        exact absurd h2 h1
      · rw [if_neg hm]
    · rw [if_neg ha] at h2
      exact absurd h2 h1
  rw [processGroup_eq_pos vg st lineage siblings0 h1, h2, hflag]
  simp [canonSet, dedupFirst, dedupFirstAux, sortStrings]

/-- Witness for `C2_amended_counter_advances` at the concrete 16-value
group. -/
theorem C2_witness :
    processGroup vgC2 initState "a" ["a.b"] =
      { enum_counter := initState.enum_counter + 1,
        decision_log := initState.decision_log ++ excludeEntries vgC2 "a" (dedupFirst ["a.b"]),
        enum_value_pairs := initState.enum_value_pairs,
        path_to_enum := initState.path_to_enum } :=
  C2_amended_counter_advances vgC2 initState "a" ["a.b"] (by decide) (by decide)

/-! ### C3 — the decision log is not a complete audit trail -/

/-- C3: the claim states that every classification candidate leaves at
least one decision-log entry, including paths with zero non-null samples.
False: a path with no non-null samples takes the silent `continue` of
discover_enums.py lines 101-103 and is never logged.  Here `"a.b"` is a
candidate (`distinct_value_count` 5 ≥ `MIN_ENUM_VALUES`), its only sample
is null, and the full pipeline ends with an empty decision log. -/
theorem C3_counterexample :
    (discover [⟨"a.b", 5⟩] [⟨"a.b", none⟩]).decision_log = [] ∧
    nonnull ((([⟨"a.b", none⟩] : List ValueSample).filter
      (fun r => canonicalize r.path == "a.b")).map ValueSample.value) = [] := by decide

/-- Every ratio-exclusion row of one group carries a sibling path that was
classified as numeric-dominated or long-text (the path column determines
which rule fired). -/
theorem excludeEntries_path_mem (vg : String → List (Option String))
    (lineage : String) (siblings : List String) (e : LogEntry)
    (he : e ∈ excludeEntries vg lineage siblings) :
    e.path ∈ siblings ∧
      (classifyPath (vg e.path) = Decision.exclude_numeric ∨
        classifyPath (vg e.path) = Decision.exclude_long_text) := by
  unfold excludeEntries at he
  obtain ⟨p2, hp2, hsome⟩ := List.mem_filterMap.mp he
  have hsome2 : (match classifyPath (vg p2) with
      | Decision.exclude_numeric =>
          some (⟨p2, "exclude", "numeric-dominated", lineage⟩ : LogEntry)
      | Decision.exclude_long_text =>
          some ⟨p2, "exclude", "long-text-non-biological", lineage⟩
      | _ => none) = some e := hsome
  cases hcl : classifyPath (vg p2) with
  | exclude_empty =>
    rw [hcl] at hsome2
    exact Option.noConfusion hsome2
  | include_categorical =>
    rw [hcl] at hsome2
    exact Option.noConfusion hsome2
  | exclude_numeric =>
    rw [hcl] at hsome2
    have hee : (⟨p2, "exclude", "numeric-dominated", lineage⟩ : LogEntry) = e :=
      Option.some.inj hsome2
    rw [← hee]
    exact ⟨hp2, Or.inl hcl⟩
  | exclude_long_text =>
    rw [hcl] at hsome2
    have hee : (⟨p2, "exclude", "long-text-non-biological", lineage⟩ : LogEntry) = e :=
      Option.some.inj hsome2
    rw [← hee]
    exact ⟨hp2, Or.inr hcl⟩

/-- The oversized filter only ever narrows the included set. -/
theorem oversizedKeep_sub (countOf : String → Nat) (ips : List String) :
    (oversizedKeep countOf ips).1 ⊆ ips := by
  unfold oversizedKeep
  split
  · split
    · exact fun a ha => ha
    · exact fun a ha => List.mem_of_mem_filter ha
  · exact fun a ha => ha

/-- Membership in `include_paths` means the classifier said categorical. -/
theorem mem_includedPaths_classify (vg : String → List (Option String))
    (siblings : List String) (p : String) (h : p ∈ includedPaths vg siblings) :
    classifyPath (vg p) = Decision.include_categorical := by
  unfold includedPaths at h
  exact of_decide_eq_true (List.mem_filter.mp h).2

/-- C3 (amended): decision-log entries are appended only — each group
iteration extends the log, never deletes or rewrites it; every candidate
path excluded by the numeric or the long-text rule gets its exclusion row,
and every finally-included path (surviving the oversized filter) gets its
include row; but a candidate path with zero non-null samples, and an
included path dropped by the oversized filter, leave no entry at all: no
row appended by the group carries such a path in its path column (the one
override row carries the group's lineage there, so this holds for every
path distinct from the lineage string). -/
theorem C3_amended_log_append_only (vg : String → List (Option String))
    (st : DiscoverState) (lineage : String) (siblings0 : List String) :
    st.decision_log <+: (processGroup vg st lineage siblings0).decision_log ∧
    (∀ p ∈ dedupFirst siblings0, classifyPath (vg p) = Decision.exclude_numeric →
      (⟨p, "exclude", "numeric-dominated", lineage⟩ : LogEntry) ∈
        (processGroup vg st lineage siblings0).decision_log) ∧
    (∀ p ∈ dedupFirst siblings0, classifyPath (vg p) = Decision.exclude_long_text →
      (⟨p, "exclude", "long-text-non-biological", lineage⟩ : LogEntry) ∈
        (processGroup vg st lineage siblings0).decision_log) ∧
    (∀ p ∈ (oversizedKeep (fun q => distinctCount (vg q))
        (includedPaths vg (dedupFirst siblings0))).1,
      (⟨p, "include", "categorical", lineage⟩ : LogEntry) ∈
        (processGroup vg st lineage siblings0).decision_log) ∧
    (∀ p : String, p ≠ lineage →
      (classifyPath (vg p) = Decision.exclude_empty ∨
        (classifyPath (vg p) = Decision.include_categorical ∧
          p ∉ (oversizedKeep (fun q => distinctCount (vg q))
            (includedPaths vg (dedupFirst siblings0))).1)) →
      ∀ e ∈ (processGroup vg st lineage siblings0).decision_log,
        e.path = p → e ∈ st.decision_log) := by
  by_cases hips : includedPaths vg (dedupFirst siblings0) = []
  · have hlog : (processGroup vg st lineage siblings0).decision_log =
        st.decision_log ++ excludeEntries vg lineage (dedupFirst siblings0) := by
      unfold processGroup
      rw [if_pos (List.isEmpty_iff.mpr hips)]
    have hkept : (oversizedKeep (fun q => distinctCount (vg q))
        (includedPaths vg (dedupFirst siblings0))).1 = [] := by
      rw [hips]
      unfold oversizedKeep
      simp
    refine ⟨?_, ?_, ?_, ?_, ?_⟩
    · rw [hlog]
      exact List.prefix_append _ _
    · intro p hp hcl
      rw [hlog]
      refine List.mem_append.mpr (Or.inr ?_)
      refine List.mem_filterMap.mpr ⟨p, hp, ?_⟩
      rw [hcl]
    · intro p hp hcl
      rw [hlog]
      refine List.mem_append.mpr (Or.inr ?_)
      refine List.mem_filterMap.mpr ⟨p, hp, ?_⟩
      rw [hcl]
    · intro p hp
      rw [hkept] at hp
      exact absurd hp (List.not_mem_nil p)
    · intro p _ hd e he hpath
      rw [hlog] at he
      rcases List.mem_append.mp he with h | h
      · exact h
      · exfalso
        obtain ⟨_, hcl2⟩ := excludeEntries_path_mem vg lineage _ e h
        rw [hpath] at hcl2
        rcases hd with hd | ⟨hd, _⟩ <;> rcases hcl2 with hcl2 | hcl2 <;>
          rw [hd] at hcl2 <;> exact Decision.noConfusion hcl2
  · rw [processGroup_eq_pos vg st lineage siblings0 hips]
    refine ⟨?_, ?_, ?_, ?_, ?_⟩
    · exact ((List.prefix_append _ _).trans (List.prefix_append _ _)).trans
        (List.prefix_append _ _)
    · intro p hp hcl
      refine List.mem_append.mpr (Or.inl (List.mem_append.mpr (Or.inl
        (List.mem_append.mpr (Or.inr ?_)))))
      refine List.mem_filterMap.mpr ⟨p, hp, ?_⟩
      rw [hcl]
    · intro p hp hcl
      refine List.mem_append.mpr (Or.inl (List.mem_append.mpr (Or.inl
        (List.mem_append.mpr (Or.inr ?_)))))
      refine List.mem_filterMap.mpr ⟨p, hp, ?_⟩
      rw [hcl]
    · intro p hp
      refine List.mem_append.mpr (Or.inr ?_)
      exact List.mem_map.mpr ⟨p, hp, rfl⟩
    · intro p hplin hd e he hpath
      rcases List.mem_append.mp he with h | hinc
      · rcases List.mem_append.mp h with h2 | hovr
        · rcases List.mem_append.mp h2 with h3 | hexc
          · exact h3
          · exfalso
            obtain ⟨_, hcl2⟩ := excludeEntries_path_mem vg lineage _ e hexc
            rw [hpath] at hcl2
            rcases hd with hd | ⟨hd, _⟩ <;> rcases hcl2 with hcl2 | hcl2 <;>
              rw [hd] at hcl2 <;> exact Decision.noConfusion hcl2
        · exfalso
          by_cases hf : (oversizedKeep (fun q => distinctCount (vg q))
              (includedPaths vg (dedupFirst siblings0))).2 = true
          · rw [if_pos hf] at hovr
            have he2 := List.mem_singleton.mp hovr
            have hpl : p = lineage := by rw [← hpath, he2]
            exact hplin hpl
          · rw [if_neg hf] at hovr
            exact absurd hovr (List.not_mem_nil e)
      · exfalso
        obtain ⟨p2, hp2, he2⟩ := List.mem_map.mp hinc
        have hpath2 : e.path = p2 := by rw [← he2]
        have hpp : p2 = p := by rw [← hpath2, hpath]
        rw [hpp] at hp2
        rcases hd with hd | ⟨_, hnot⟩
        · have hone := mem_includedPaths_classify vg (dedupFirst siblings0) p
            (oversizedKeep_sub _ _ hp2)
          rw [hd] at hone
          exact Decision.noConfusion hone
        · exact hnot hp2

/-- Concrete group for the C3 witness: a numeric-dominated path, a path
with only a null sample, and a kept categorical path. -/
def vgC3 : String → List (Option String) := fun p =>
  if p = "n.x" then [some "1", some "2", some "3"]
  else if p = "n.y" then [none]
  else if p = "n.z" then [some "u", some "v"]
  else []

/-- Witness for `C3_amended_log_append_only`: the numeric-dominated path
`"n.x"` gets its exclusion row and the kept categorical path `"n.z"` gets
its include row. -/
theorem C3_witness :
    (⟨"n.x", "exclude", "numeric-dominated", "n"⟩ : LogEntry) ∈
      (processGroup vgC3 initState "n" ["n.x", "n.y", "n.z"]).decision_log ∧
    (⟨"n.z", "include", "categorical", "n"⟩ : LogEntry) ∈
      (processGroup vgC3 initState "n" ["n.x", "n.y", "n.z"]).decision_log :=
  ⟨(C3_amended_log_append_only vgC3 initState "n" ["n.x", "n.y", "n.z"]).2.1 "n.x"
      (by decide) (by decide),
   (C3_amended_log_append_only vgC3 initState "n" ["n.x", "n.y", "n.z"]).2.2.2.1 "n.z"
      (by decide)⟩

/-! ### C1 — deduplication renumbers canonical ids -/

/-- C1: the claim states that every canonical enum is identified by the
lowest-sequence-number provisional id among the duplicates it absorbs, and
in particular that an enum whose value set is unique keeps its own id.
False: the dedup loop (discover_enums.py lines 158-167) assigns canonical
ids from a fresh `canonical_counter`, so once one duplicate has been
absorbed every later first-of-its-kind set is renumbered downward.  With
provisional enums `1 ↦ {a}`, `2 ↦ {a}`, `3 ↦ {b}`, the set `{b}` of enum 3
is unique, yet enum 3 is remapped to id 2. -/
theorem C1_counterexample :
    enumRemap (enum_to_values [(1, "a"), (2, "a"), (3, "b")]) =
      [(1, 1), (2, 1), (3, 2)] ∧
    remapOf (enumRemap (enum_to_values [(1, "a"), (2, "a"), (3, "b")])) 3 ≠ 3 := by decide

/-- C1 (amended): each canonical enum is identified by `Enum_k` where `k`
is the 1-based rank of the first appearance of its value set — the
surviving sets are renumbered sequentially from `Enum_0001` — which
coincides with the lowest absorbed provisional id only when every earlier
value set is a distinct first occurrence.  In the spec's example this is
the case: with `Enum_0001 = {yes, no}`, distinct sets for `Enum_0002` to
`Enum_0004`, and `Enum_0005 = {no, yes}`, the merge log records exactly
`(Enum_0005, Enum_0001)`, path-to-enum rows referencing enum 5 are
rewritten to enum 1, and enums 2-4 keep their own ids. -/
theorem C1_amended_dedup_renumbers :
    enumRemap (enum_to_values
        [(1, "yes"), (1, "no"), (2, "b"), (3, "c"), (4, "d"), (5, "no"), (5, "yes")]) =
      [(1, 1), (2, 2), (3, 3), (4, 4), (5, 1)] ∧
    mergeLog (enumRemap (enum_to_values
        [(1, "yes"), (1, "no"), (2, "b"), (3, "c"), (4, "d"), (5, "no"), (5, "yes")])) =
      [(5, 1)] ∧
    applyRemapP2E (enumRemap (enum_to_values
        [(1, "yes"), (1, "no"), (2, "b"), (3, "c"), (4, "d"), (5, "no"), (5, "yes")]))
        [("p1", 1), ("p5", 5)] = [("p1", 1), ("p5", 1)] ∧
    enumId 1 = "Enum_0001" ∧ enumId 5 = "Enum_0005" := by decide

/-! ### C9 — the dedup remap is not idempotent -/

/-- C9: for the provisional enums `1 ↦ {x}`, `2 ↦ {x}`, `3 ↦ {y}` the merge
log is `[(2, 1), (3, 2)]`: the id 2 emitted as `new_enum` in the record
`(3, 2)` also appears as `old_enum` in the record `(2, 1)`, because the
surviving value sets are renumbered sequentially from `Enum_0001`; applying
the remap twice to id 3 gives a different answer than applying it once. -/
theorem C9_remap_not_idempotent :
    mergeLog (enumRemap (enum_to_values [(1, "x"), (2, "x"), (3, "y")])) =
      [(2, 1), (3, 2)] ∧
    remapOf (enumRemap (enum_to_values [(1, "x"), (2, "x"), (3, "y")]))
        (remapOf (enumRemap (enum_to_values [(1, "x"), (2, "x"), (3, "y")])) 3) ≠
      remapOf (enumRemap (enum_to_values [(1, "x"), (2, "x"), (3, "y")])) 3 := by decide

/-! ### C7 — malformed input aborts before any output -/

end BacPhen
